import Mathlib

/-!
Formal model of the answer-cache and request-orchestration layer of
`services/geminiService.ts` from the intelligent-query-retrieval-system
repository, together with the result-assembly step of the UI's
`handleAnalyze` callback.

Modelling conventions:
* JS strings are modelled by Lean `String`; `charCodeAt` is modelled by
  `Char.toNat` (these agree on the Basic Multilingual Plane, which covers
  every input appearing in the claims).
* The two module-level JS `Map`s (`responseCache`, `cacheTimestamps`) are
  modelled by association lists with first-match lookup; `Map.set` removes
  any previous binding of the key, matching the overwrite semantics.
* `Date.now()` is passed in explicitly as a `Nat` clock value (one value
  per orchestrated call, since the call reads the clock at most twice in
  immediate succession).
* The Gemini client and `JSON.parse` are external platform capabilities;
  the outcome of the single `generateContent` call is passed in as a
  `GenerateOutcome` value describing whether the promise rejected (and with
  which message), and otherwise the returned `response.text` together with
  the outcome of `JSON.parse` on it.
* Thrown `Error` values carry only their message string in the source, so
  a thrown error is modelled as its message.
-/

namespace GeminiService

/-- JS `String.prototype.trim()`: strip leading and trailing whitespace.
Modelled explicitly (rather than by `String.trim`) because it is a platform
primitive; the whitespace class is the one shared by JS and Lean
(space, tab, carriage return, line feed). -/
def jsTrim (s : String) : String :=
  ⟨((s.data.dropWhile Char.isWhitespace).reverse.dropWhile Char.isWhitespace).reverse⟩

/-- One step of the rolling hash of `generateCacheKey`:
`hash = ((hash << 5) - hash) + char` followed by the 32-bit truncation
`hash = hash & hash`, i.e. `31 * h + c` reduced modulo `2 ^ 32`. -/
def jsHashStep (h c : Nat) : Nat :=
  (31 * h + c) % 2 ^ 32

/-- The string `documentText + questions.join('||')` hashed by
`generateCacheKey`. -/
def combinedString (documentText : String) (questions : List String) : String :=
  documentText ++ String.intercalate "||" questions

/-- The 32-bit hash value accumulated by the loop of `generateCacheKey`,
as the unsigned representative modulo `2 ^ 32`. -/
def cacheHash (documentText : String) (questions : List String) : Nat :=
  (((combinedString documentText questions).data.map Char.toNat).foldl jsHashStep 0)

/-- Reinterpret the unsigned 32-bit value as a signed 32-bit integer,
modelling the JS `| hash & hash |` coercion result that `toString` prints. -/
def toInt32 (n : Nat) : Int :=
  if n % 2 ^ 32 < 2 ^ 31 then ((n % 2 ^ 32 : Nat) : Int)
  else ((n % 2 ^ 32 : Nat) : Int) - 2 ^ 32

/-- `generateCacheKey` from `services/geminiService.ts`: hash
`documentText + questions.join('||')` with the 31-ary rolling hash over
32-bit signed integers and render the result in decimal. -/
def generateCacheKey (documentText : String) (questions : List String) : String :=
  toString (toInt32 (cacheHash documentText questions))

/-- Numeric value of a decimal digit character (verification helper used
to invert the decimal rendering of the cache key). -/
def digitVal (c : Char) : Nat := c.toNat - 48

/-- Decode a most-significant-first list of decimal digit characters back
to the natural number it renders (verification helper). -/
def decodeDigits (l : List Char) : Nat :=
  l.foldl (fun acc c => 10 * acc + digitVal c) 0

/-- First-match lookup in an association list, the model of `Map.get` and
of JS object property lookup. -/
def mapGet {α : Type} : List (String × α) → String → Option α
  | [], _ => none
  | (k, v) :: rest, key => if k = key then some v else mapGet rest key

/-- Runtime JSON values, as produced by `JSON.parse`. -/
inductive Json where
  | null
  | bool (b : Bool)
  | num (n : Int)
  | str (s : String)
  | arr (xs : List Json)
  | obj (fields : List (String × Json))

/-- JS truthiness of a parsed JSON value (`if (parsedResponse && ...)`). -/
def Json.truthy : Json → Bool
  | .null => false
  | .bool b => b
  | .num n => n != 0
  | .str s => s != ""
  | .arr _ => true
  | .obj _ => true

/-- Property access `v.answers` on a parsed JSON value: defined exactly for
objects, `undefined` (here `none`) otherwise. -/
def Json.getField : Json → String → Option Json
  | .obj fields, key => mapGet fields key
  | _, _ => none

/-- The check `parsedResponse && Array.isArray(parsedResponse.answers)`
of `runQueryRetrieval`, returning the `answers` array when it passes.
Element types are not inspected, exactly as in the source. -/
def answersField (v : Json) : Option (List Json) :=
  if v.truthy then
    match v.getField "answers" with
    | some (.arr xs) => some xs
    | _ => none
  else none

/-- `Map.set`: bind `key` to `v`, dropping any previous binding of `key`. -/
def mapSet {α : Type} (m : List (String × α)) (key : String) (v : α) :
    List (String × α) :=
  (key, v) :: m.filter (fun kv => kv.1 != key)

/-- The two module-level maps of `services/geminiService.ts`:
`responseCache : Map<string, string[]>` (runtime values: whatever array
`JSON.parse` produced) and `cacheTimestamps : Map<string, number>`. -/
structure CacheState where
  responseCache : List (String × List Json)
  cacheTimestamps : List (String × Nat)

/-- `CACHE_EXPIRY = 5 * 60 * 1000` milliseconds. -/
def CACHE_EXPIRY : Nat := 5 * 60 * 1000

/-- The keys deleted by one run of `clearExpiredCache` at clock `now`:
those whose recorded timestamp satisfies `now - timestamp > CACHE_EXPIRY`.
JS number subtraction of a later timestamp gives a negative value, which is
never `> CACHE_EXPIRY`, matching truncated `Nat` subtraction. -/
def expiredKeys (now : Nat) (st : CacheState) : List String :=
  (st.cacheTimestamps.filter (fun kt => decide (now - kt.2 > CACHE_EXPIRY))).map Prod.fst

/-- `clearExpiredCache` from `services/geminiService.ts`: delete every
entry whose age exceeds `CACHE_EXPIRY` from both maps. -/
def clearExpiredCache (now : Nat) (st : CacheState) : CacheState :=
  { responseCache :=
      st.responseCache.filter (fun kv => !(expiredKeys now st).contains kv.1)
    cacheTimestamps :=
      st.cacheTimestamps.filter (fun kt => !decide (now - kt.2 > CACHE_EXPIRY)) }

/-- Outcome of the single awaited `ai.models.generateContent` call.
`ok text parsed` means the promise resolved with `response.text = text`
(`none` models `undefined`) and `parsed` is the outcome of `JSON.parse`
on the trimmed text (`none` models a parse exception); `JSON.parse` is a
platform primitive and is modelled by its outcome. -/
inductive GenerateOutcome where
  | throwsError (msg : String)
  | throwsNonError
  | ok (text : Option String) (parsed : Option Json)

/-- Result of one call to `runQueryRetrieval`: a thrown `Error` (carrying
its message), the `null` return, or a resolved answers array. -/
inductive RunResult where
  | thrown (msg : String)
  | retNull
  | answers (xs : List Json)

/-- Result, post-state and number of outbound provider calls of one call
to `runQueryRetrieval`. -/
structure RunOutcome where
  result : RunResult
  state : CacheState
  providerCalls : Nat

/-- `error.message.includes(pattern)`: substring containment. -/
def containsSub (s pattern : String) : Bool :=
  decide (List.IsInfix pattern.data s.data)

/-- The catch-block of `runQueryRetrieval`: map the message of a thrown
`Error` to the message of the error re-thrown to the caller, by ordered
substring tests. -/
def classifyError (msg : String) : String :=
  if containsSub msg "quota" then
    "API quota exceeded. Please try again later."
  else if containsSub msg "unauthorized" then
    "Invalid API key. Please check your API configuration."
  else if containsSub msg "rate limit" then
    "Rate limit exceeded. Please wait a moment before trying again."
  else
    "Gemini API Error: " ++ msg

/-- The `try { ... } catch` body of `runQueryRetrieval` after a cache miss:
await the provider, handle the response text, parse it, validate its shape,
cache on success. The inner `throw new Error("Invalid JSON response from
Gemini API.")` is caught again by the outer catch-block and reclassified,
exactly as in the source. -/
def handleProviderOutcome (cacheKey : String) (st1 : CacheState) (now : Nat) :
    GenerateOutcome → RunOutcome
  | .throwsError msg =>
      { result := .thrown (classifyError msg), state := st1, providerCalls := 1 }
  | .throwsNonError =>
      { result := .thrown "An unknown error occurred while communicating with the Gemini API."
        state := st1, providerCalls := 1 }
  | .ok text parsed =>
      let responseText := jsTrim (text.getD "")
      if responseText = "" then
        { result := .retNull, state := st1, providerCalls := 1 }
      else
        match parsed with
        | none =>
            { result := .thrown (classifyError "Invalid JSON response from Gemini API.")
              state := st1, providerCalls := 1 }
        | some v =>
            match answersField v with
            | some xs =>
                { result := .answers xs
                  state := { responseCache := mapSet st1.responseCache cacheKey xs
                             cacheTimestamps := mapSet st1.cacheTimestamps cacheKey now }
                  providerCalls := 1 }
            | none =>
                { result := .retNull, state := st1, providerCalls := 1 }

/-- `runQueryRetrieval` from `services/geminiService.ts`. `configured`
models whether the module-level `ai` client is non-null (i.e. `API_KEY`
was set); `provider` is the outcome the external provider would produce
for the one outbound call; `now` is the clock value; `st` the prior
contents of the two module-level maps. -/
def runQueryRetrieval (configured : Bool) (documentText : String)
    (questions : List String) (provider : GenerateOutcome) (now : Nat)
    (st : CacheState) : RunOutcome :=
  if configured then
    if jsTrim documentText = "" then
      { result := .thrown "Document text cannot be empty.", state := st, providerCalls := 0 }
    else if questions.length = 0 then
      { result := .thrown "At least one question is required.", state := st, providerCalls := 0 }
    else
      let st1 := clearExpiredCache now st
      let cacheKey := generateCacheKey documentText questions
      match mapGet st1.responseCache cacheKey with
      | some cachedResult =>
          { result := .answers cachedResult, state := st1, providerCalls := 0 }
      | none => handleProviderOutcome cacheKey st1 now provider
  else
    { result := .thrown "Gemini AI client not initialized.", state := st, providerCalls := 0 }

/-- The answer displayed at `index` by `handleAnalyze` in the UI layer:
`answers[index] || "No answer found."` (an out-of-range access yields
`undefined`, and an empty string is falsy; both fall back to the
sentinel). -/
def queryResultAnswer (answers : List String) (index : Nat) : String :=
  match answers.get? index with
  | some a => if a = "" then "No answer found." else a
  | none => "No answer found."

/-- The `queryResults` list built by `handleAnalyze`:
`processedQuestions.map((question, index) => ({question, answer:
answers[index] || "No answer found."}))`. -/
def queryResults (processedQuestions : List String) (answers : List String) :
    List (String × String) :=
  processedQuestions.enum.map (fun iq => (iq.2, queryResultAnswer answers iq.1))

/-- Well-formedness of the module-level maps, maintained by the source
(every cached answers array was stored together with a timestamp): each
key of `responseCache` has a binding in `cacheTimestamps`. -/
def WF (st : CacheState) : Bool :=
  st.responseCache.all (fun kv => (mapGet st.cacheTimestamps kv.1).isSome)

/-! ### Association-list lemmas -/

theorem mapGet_eq_some_mem {α : Type} {l : List (String × α)} {k : String} {v : α}
    (h : mapGet l k = some v) : (k, v) ∈ l := by
  induction l with
  | nil => simp [mapGet] at h
  | cons kv rest ih =>
    obtain ⟨k', v'⟩ := kv
    simp only [mapGet] at h
    split at h
    · next heq =>
      injection h with hv
      subst heq hv
      exact List.mem_cons_self _ _
    · exact List.mem_cons_of_mem _ (ih h)

theorem mem_mapGet_isSome {α : Type} {l : List (String × α)} {k : String} {v : α}
    (h : (k, v) ∈ l) : (mapGet l k).isSome := by
  induction l with
  | nil => simp at h
  | cons kv rest ih =>
    obtain ⟨k', v'⟩ := kv
    simp only [mapGet]
    split
    · simp
    · next hne =>
      rcases List.mem_cons.mp h with h1 | h2
      · exact absurd (congrArg Prod.fst h1).symm hne
      · exact ih h2

theorem mapGet_filter_none {α : Type} {l : List (String × α)} {k : String}
    (p : String × α → Bool) (h : mapGet l k = none) :
    mapGet (l.filter p) k = none := by
  induction l with
  | nil => simp [mapGet]
  | cons kv rest ih =>
    obtain ⟨k', v'⟩ := kv
    simp only [mapGet] at h
    split at h
    · exact absurd h (by simp)
    · next hne =>
      simp only [List.filter_cons]
      split
      · simpa [mapGet, hne] using ih h
      · exact ih h

theorem mapGet_filter_keyFalse {α : Type} {l : List (String × α)} {k : String}
    (p : String → Bool) (hp : p k = false) :
    mapGet (l.filter (fun kv => p kv.1)) k = none := by
  induction l with
  | nil => simp [mapGet]
  | cons kv rest ih =>
    obtain ⟨k', v'⟩ := kv
    simp only [List.filter_cons]
    split
    · next hpk =>
      have hne : k' ≠ k := by
        intro heq
        rw [heq] at hpk
        simp [hp] at hpk
      simpa [mapGet, hne] using ih
    · exact ih

theorem mapGet_filter_eq_some {α : Type} {l : List (String × α)} {k : String} {v : α}
    {p : String × α → Bool} (h : mapGet (l.filter p) k = some v) :
    (k, v) ∈ l ∧ p (k, v) = true := by
  have hm := mapGet_eq_some_mem h
  exact List.mem_filter.mp hm

theorem mapGet_mapSet_self {α : Type} (m : List (String × α)) (k : String) (v : α) :
    mapGet (mapSet m k v) k = some v := by
  simp [mapSet, mapGet]

/-! ### Branch lemmas for `runQueryRetrieval` -/

theorem run_empty_doc {doc : String} (hdoc : jsTrim doc = "") (qs : List String)
    (provider : GenerateOutcome) (now : Nat) (st : CacheState) :
    runQueryRetrieval true doc qs provider now st =
      ⟨.thrown "Document text cannot be empty.", st, 0⟩ := by
  simp [runQueryRetrieval, hdoc]

theorem run_empty_questions {doc : String} (hdoc : jsTrim doc ≠ "")
    (provider : GenerateOutcome) (now : Nat) (st : CacheState) :
    runQueryRetrieval true doc [] provider now st =
      ⟨.thrown "At least one question is required.", st, 0⟩ := by
  simp [runQueryRetrieval, hdoc]

theorem run_hit {doc : String} {qs : List String} (hdoc : jsTrim doc ≠ "")
    (hq : qs ≠ []) {now : Nat} {st : CacheState} {xs : List Json}
    (hhit : mapGet (clearExpiredCache now st).responseCache
      (generateCacheKey doc qs) = some xs) (provider : GenerateOutcome) :
    runQueryRetrieval true doc qs provider now st =
      ⟨.answers xs, clearExpiredCache now st, 0⟩ := by
  simp [runQueryRetrieval, hdoc, hq, hhit]

theorem run_miss {doc : String} {qs : List String} (hdoc : jsTrim doc ≠ "")
    (hq : qs ≠ []) {now : Nat} {st : CacheState}
    (hmiss : mapGet (clearExpiredCache now st).responseCache
      (generateCacheKey doc qs) = none) (provider : GenerateOutcome) :
    runQueryRetrieval true doc qs provider now st =
      handleProviderOutcome (generateCacheKey doc qs) (clearExpiredCache now st)
        now provider := by
  simp [runQueryRetrieval, hdoc, hq, hmiss]

theorem handle_providerCalls (k : String) (st1 : CacheState) (now : Nat)
    (provider : GenerateOutcome) :
    (handleProviderOutcome k st1 now provider).providerCalls = 1 := by
  cases provider with
  | throwsError msg => rfl
  | throwsNonError => rfl
  | ok text parsed =>
    simp only [handleProviderOutcome]
    split
    · rfl
    · cases parsed with
      | none => rfl
      | some v => cases h : answersField v <;> simp [h]

theorem handle_success {k : String} {st1 : CacheState} {now : Nat}
    {text : Option String} {v : Json} {xs : List Json}
    (htext : jsTrim (text.getD "") ≠ "") (hans : answersField v = some xs) :
    handleProviderOutcome k st1 now (.ok text (some v)) =
      ⟨.answers xs,
       ⟨mapSet st1.responseCache k xs, mapSet st1.cacheTimestamps k now⟩, 1⟩ := by
  simp [handleProviderOutcome, htext, hans]

theorem handle_state_of_no_answers {k : String} {st1 : CacheState} {now : Nat}
    {provider : GenerateOutcome}
    (h : ∀ xs, (handleProviderOutcome k st1 now provider).result ≠ .answers xs) :
    (handleProviderOutcome k st1 now provider).state = st1 := by
  cases provider with
  | throwsError msg => rfl
  | throwsNonError => rfl
  | ok text parsed =>
    simp only [handleProviderOutcome] at h ⊢
    split
    · rfl
    · cases parsed with
      | none => rfl
      | some v =>
        cases hans : answersField v with
        | none => simp [hans]
        | some xs =>
          next htext =>
          exact absurd (by simp [hans, htext]) (h xs)

/-! ### Expiry-sweep lemmas -/

theorem contains_expiredKeys_true {now : Nat} {st : CacheState} {k : String} {ts : Nat}
    (hts : (k, ts) ∈ st.cacheTimestamps) (hexp : now - ts > CACHE_EXPIRY) :
    (expiredKeys now st).contains k = true := by
  apply List.elem_eq_true_of_mem
  exact List.mem_map.mpr ⟨(k, ts), List.mem_filter.mpr ⟨hts, by simpa using hexp⟩, rfl⟩

theorem contains_expiredKeys_exists {now : Nat} {st : CacheState} {k : String}
    (h : (expiredKeys now st).contains k = true) :
    ∃ ts, (k, ts) ∈ st.cacheTimestamps ∧ now - ts > CACHE_EXPIRY := by
  have hm : k ∈ expiredKeys now st := List.mem_of_elem_eq_true h
  obtain ⟨⟨k', ts⟩, hmem, hk⟩ := List.mem_map.mp hm
  obtain ⟨hmem', hdec⟩ := List.mem_filter.mp hmem
  cases hk
  exact ⟨ts, hmem', by simpa using hdec⟩

theorem sweep_responseCache_none_of_expired {now : Nat} {st : CacheState}
    {k : String} {ts : Nat} (hts : mapGet st.cacheTimestamps k = some ts)
    (hexp : now - ts > CACHE_EXPIRY) :
    mapGet (clearExpiredCache now st).responseCache k = none := by
  have hc := contains_expiredKeys_true (mapGet_eq_some_mem hts) hexp
  exact mapGet_filter_keyFalse (fun key => !(expiredKeys now st).contains key)
    (by show (!(expiredKeys now st).contains k) = false; rw [hc]; rfl)

theorem sweep_hit_fresh {now : Nat} {st : CacheState} {k : String} {xs : List Json}
    (hwf : WF st = true)
    (hhit : mapGet (clearExpiredCache now st).responseCache k = some xs) :
    ∃ ts, mapGet st.cacheTimestamps k = some ts ∧ now - ts ≤ CACHE_EXPIRY := by
  obtain ⟨hmem, hp⟩ := mapGet_filter_eq_some hhit
  have hcon : (expiredKeys now st).contains k = false := by simpa using hp
  have hsome := List.all_eq_true.mp hwf _ hmem
  obtain ⟨ts, hts⟩ := Option.isSome_iff_exists.mp hsome
  refine ⟨ts, hts, ?_⟩
  by_contra hgt
  push_neg at hgt
  have := contains_expiredKeys_true (mapGet_eq_some_mem hts) hgt
  rw [this] at hcon
  simp at hcon

/-! ### Claim theorems -/

/-- C10: when the API key is not configured, `runQueryRetrieval` throws the
client-not-initialized error for every input — including an empty document
text or an empty question list — before any input validation, cache access
(the state is returned untouched) or provider interaction (zero provider
calls), so the invalid-input errors are never surfaced in the unconfigured
state. -/
theorem not_configured_precedence (documentText : String) (questions : List String)
    (provider : GenerateOutcome) (now : Nat) (st : CacheState) :
    runQueryRetrieval false documentText questions provider now st =
      ⟨.thrown "Gemini AI client not initialized.", st, 0⟩ := rfl

/-- C6 counterexample: a question list containing only a blank entry is not
rejected by input validation: with a configured client and non-blank
document, the call proceeds all the way to the provider (one outbound call
occurs) and surfaces the provider error, not the invalid-input error. -/
theorem blank_questions_not_rejected :
    (runQueryRetrieval true "d" ["   "] (.throwsError "boom") 0 ⟨[], []⟩).providerCalls = 1 ∧
    (runQueryRetrieval true "d" ["   "] (.throwsError "boom") 0 ⟨[], []⟩).result =
      .thrown "Gemini API Error: boom" :=
  ⟨rfl, rfl⟩

/-- C6 amended: with a configured client, `runQueryRetrieval` fails fast —
before any cache consultation (state unchanged) and with zero provider
calls — with the invalid-input error for a document text that is blank
after trimming, and for an empty question list; but a non-empty question
list whose entries are all blank is not rejected. -/
theorem input_validation_fails_fast (documentText : String)
    (questions : List String) (provider : GenerateOutcome) (now : Nat)
    (st : CacheState) :
    (jsTrim documentText = "" →
      runQueryRetrieval true documentText questions provider now st =
        ⟨.thrown "Document text cannot be empty.", st, 0⟩) ∧
    (jsTrim documentText ≠ "" → questions = [] →
      runQueryRetrieval true documentText questions provider now st =
        ⟨.thrown "At least one question is required.", st, 0⟩) := by
  constructor
  · intro hdoc
    exact run_empty_doc hdoc questions provider now st
  · intro hdoc hqs
    subst hqs
    exact run_empty_questions hdoc provider now st

/-- Witness for the C6 amended theorem at concrete inputs: an all-blank
document fails with the document error, and an empty question list fails
with the question error, in both cases with no provider call and the
cache state untouched. -/
theorem input_validation_fails_fast_witness :
    (runQueryRetrieval true "  " ["q"] .throwsNonError 0 ⟨[], []⟩ =
      ⟨.thrown "Document text cannot be empty.", ⟨[], []⟩, 0⟩) ∧
    (runQueryRetrieval true "d" [] .throwsNonError 0 ⟨[], []⟩ =
      ⟨.thrown "At least one question is required.", ⟨[], []⟩, 0⟩) :=
  ⟨(input_validation_fails_fast "  " ["q"] .throwsNonError 0 ⟨[], []⟩).1 (by decide),
   (input_validation_fails_fast "d" [] .throwsNonError 0 ⟨[], []⟩).2 (by decide) rfl⟩

/-- C2: the cache never serves stale data. With a configured client and
valid inputs, (a) if the call returns an answer sequence without any
outbound provider call (a cache hit), then the entry's timestamp exists
and its age `now - ts` is at most the 5-minute TTL; (b) if the fingerprint
has a recorded timestamp whose age exceeds the TTL, the entry behaves as
absent and the call issues exactly one fresh outbound request. -/
theorem cache_never_serves_stale {documentText : String} {questions : List String}
    (provider : GenerateOutcome) {now : Nat} {st : CacheState}
    (hdoc : jsTrim documentText ≠ "") (hq : questions ≠ []) (hwf : WF st = true) :
    (∀ xs, (runQueryRetrieval true documentText questions provider now st).result =
        .answers xs →
      (runQueryRetrieval true documentText questions provider now st).providerCalls = 0 →
      ∃ ts, mapGet st.cacheTimestamps (generateCacheKey documentText questions) =
          some ts ∧ now - ts ≤ CACHE_EXPIRY) ∧
    (∀ ts, mapGet st.cacheTimestamps (generateCacheKey documentText questions) =
        some ts → now - ts > CACHE_EXPIRY →
      (runQueryRetrieval true documentText questions provider now st).providerCalls = 1) := by
  constructor
  · intro xs _ hcalls
    cases hhit : mapGet (clearExpiredCache now st).responseCache
        (generateCacheKey documentText questions) with
    | some ys => exact sweep_hit_fresh hwf hhit
    | none =>
      rw [run_miss hdoc hq hhit provider, handle_providerCalls] at hcalls
      exact absurd hcalls one_ne_zero
  · intro ts hts hexp
    have hnone := sweep_responseCache_none_of_expired hts hexp
    rw [run_miss hdoc hq hnone provider]
    exact handle_providerCalls _ _ _ _

/-- Witness for C2 at concrete inputs: a cache entry recorded at time `0`
is stale at time `CACHE_EXPIRY + 1`, so the call issues one fresh outbound
request instead of serving it. -/
theorem cache_never_serves_stale_witness :
    jsTrim "d" ≠ "" ∧ (["q"] : List String) ≠ [] ∧
    WF ⟨[(generateCacheKey "d" ["q"], [Json.str "a"])],
        [(generateCacheKey "d" ["q"], 0)]⟩ = true ∧
    (runQueryRetrieval true "d" ["q"] (.throwsError "x") (CACHE_EXPIRY + 1)
      ⟨[(generateCacheKey "d" ["q"], [Json.str "a"])],
       [(generateCacheKey "d" ["q"], 0)]⟩).providerCalls = 1 :=
  ⟨by decide, by decide, by rfl,
   (@cache_never_serves_stale "d" ["q"] (.throwsError "x") (CACHE_EXPIRY + 1)
      ⟨[(generateCacheKey "d" ["q"], [Json.str "a"])],
       [(generateCacheKey "d" ["q"], 0)]⟩ (by decide) (by decide)
      (by rfl)).2 0 (by rfl) (by decide)⟩

theorem sweep_after_set {now2 : Nat} {st1 : CacheState} {key : String}
    {xs : List Json} {ts : Nat} (hfresh : now2 - ts ≤ CACHE_EXPIRY) :
    mapGet (clearExpiredCache now2
      ⟨mapSet st1.responseCache key xs, mapSet st1.cacheTimestamps key ts⟩).responseCache
      key = some xs := by
  have hnc : (expiredKeys now2 ⟨mapSet st1.responseCache key xs,
      mapSet st1.cacheTimestamps key ts⟩).contains key = false := by
    by_contra h
    have h' := eq_true_of_ne_false h
    obtain ⟨ts', hmem, hexp⟩ := contains_expiredKeys_exists h'
    simp only [mapSet] at hmem
    rcases List.mem_cons.mp hmem with heq | hmem'
    · injection heq with _ hts
      subst hts
      exact absurd hexp (not_lt.mpr hfresh)
    · have := (List.mem_filter.mp hmem').2
      simp at this
  show mapGet (List.filter
      (fun kv => !(expiredKeys now2 ⟨mapSet st1.responseCache key xs,
        mapSet st1.cacheTimestamps key ts⟩).contains kv.1)
      ((key, xs) :: st1.responseCache.filter (fun kv => kv.1 != key))) key = some xs
  rw [List.filter_cons]
  have hp : (!(expiredKeys now2 ⟨mapSet st1.responseCache key xs,
      mapSet st1.cacheTimestamps key ts⟩).contains ((key, xs) :
        String × List Json).1) = true := by
    show (!(expiredKeys now2 ⟨mapSet st1.responseCache key xs,
      mapSet st1.cacheTimestamps key ts⟩).contains key) = true
    rw [hnc]
    rfl
  rw [if_pos hp]
  show (if key = key then some xs else _) = some xs
  rw [if_pos rfl]

/-- C3: if a first call to `runQueryRetrieval` misses the cache and the
provider call succeeds with answers `xs`, the first call returns `xs` with
exactly one outbound call, and any second call with identical inputs whose
clock advance stays within the TTL is a cache hit: it returns the same
answer sequence `xs` unchanged with zero outbound calls — so at most one
outbound call is made across the two calls, whatever the provider would
have answered the second time. -/
theorem second_call_is_cache_hit {documentText : String} {questions : List String}
    {text : Option String} {v : Json} {xs : List Json} {now1 now2 : Nat}
    {st : CacheState} (hdoc : jsTrim documentText ≠ "") (hq : questions ≠ [])
    (hmiss : mapGet (clearExpiredCache now1 st).responseCache
      (generateCacheKey documentText questions) = none)
    (htext : jsTrim (text.getD "") ≠ "") (hans : answersField v = some xs)
    (httl : now2 - now1 ≤ CACHE_EXPIRY) (provider2 : GenerateOutcome) :
    (runQueryRetrieval true documentText questions (.ok text (some v)) now1 st).result =
      .answers xs ∧
    (runQueryRetrieval true documentText questions (.ok text (some v)) now1 st).providerCalls = 1 ∧
    (runQueryRetrieval true documentText questions provider2 now2
      (runQueryRetrieval true documentText questions (.ok text (some v)) now1 st).state).result =
      .answers xs ∧
    (runQueryRetrieval true documentText questions provider2 now2
      (runQueryRetrieval true documentText questions (.ok text (some v)) now1 st).state).providerCalls = 0 := by
  have h1 : runQueryRetrieval true documentText questions (.ok text (some v)) now1 st =
      ⟨.answers xs,
       ⟨mapSet (clearExpiredCache now1 st).responseCache
          (generateCacheKey documentText questions) xs,
        mapSet (clearExpiredCache now1 st).cacheTimestamps
          (generateCacheKey documentText questions) now1⟩, 1⟩ := by
    rw [run_miss hdoc hq hmiss _, handle_success htext hans]
  rw [h1]
  have hhit := @sweep_after_set now2 (clearExpiredCache now1 st)
    (generateCacheKey documentText questions) xs now1 httl
  rw [run_hit hdoc hq hhit provider2]
  exact ⟨rfl, rfl, rfl, rfl⟩

/-- Witness for C3 at concrete inputs: after one successful call, an
immediately repeated call (same clock) returns the same answers with zero
provider calls, even against a provider that would now fail. -/
theorem second_call_is_cache_hit_witness :
    (runQueryRetrieval true "d" ["q"]
      (.ok (some "\x7b\"answers\":[\"a\"]\x7d") (some (.obj [("answers", .arr [.str "a"])])))
      0 ⟨[], []⟩).result = .answers [.str "a"] ∧
    (runQueryRetrieval true "d" ["q"] (.throwsError "down") 0
      (runQueryRetrieval true "d" ["q"]
        (.ok (some "\x7b\"answers\":[\"a\"]\x7d") (some (.obj [("answers", .arr [.str "a"])])))
        0 ⟨[], []⟩).state).result = .answers [.str "a"] ∧
    (runQueryRetrieval true "d" ["q"] (.throwsError "down") 0
      (runQueryRetrieval true "d" ["q"]
        (.ok (some "\x7b\"answers\":[\"a\"]\x7d") (some (.obj [("answers", .arr [.str "a"])])))
        0 ⟨[], []⟩).state).providerCalls = 0 := by
  have h := @second_call_is_cache_hit "d" ["q"]
    (some "\x7b\"answers\":[\"a\"]\x7d") (.obj [("answers", .arr [.str "a"])])
    [.str "a"] 0 0 ⟨[], []⟩ (by decide) (by decide) (by rfl) (by decide) (by rfl)
    (by decide) (.throwsError "down")
  exact ⟨h.1, h.2.2.1, h.2.2.2⟩

/-- C7: failure atomicity. With a configured client and valid inputs, if
the call made an outbound provider attempt (`providerCalls = 1`) and did
not produce an answers result (it threw or returned null), then no cache
entry exists under the request's fingerprint afterwards, and any
re-invocation with identical inputs — at any later clock, against any
provider — misses the cache and performs a fresh outbound call. -/
theorem failure_writes_no_cache {documentText : String} {questions : List String}
    {provider : GenerateOutcome} {now : Nat} {st : CacheState}
    (hdoc : jsTrim documentText ≠ "") (hq : questions ≠ [])
    (hcalls : (runQueryRetrieval true documentText questions provider now st).providerCalls = 1)
    (hfail : ∀ xs, (runQueryRetrieval true documentText questions provider now st).result ≠
      .answers xs) :
    mapGet (runQueryRetrieval true documentText questions provider now st).state.responseCache
      (generateCacheKey documentText questions) = none ∧
    ∀ provider2 now2,
      (runQueryRetrieval true documentText questions provider2 now2
        (runQueryRetrieval true documentText questions provider now st).state).providerCalls = 1 := by
  cases hhit : mapGet (clearExpiredCache now st).responseCache
      (generateCacheKey documentText questions) with
  | some ys =>
    rw [run_hit hdoc hq hhit provider] at hcalls
    exact absurd hcalls.symm one_ne_zero
  | none =>
    have hrun := run_miss hdoc hq hhit provider
    rw [hrun] at hfail ⊢
    have hstate := handle_state_of_no_answers hfail
    rw [hstate]
    refine ⟨hhit, ?_⟩
    intro provider2 now2
    have hmiss2 : mapGet (clearExpiredCache now2 (clearExpiredCache now st)).responseCache
        (generateCacheKey documentText questions) = none :=
      mapGet_filter_none _ hhit
    rw [run_miss hdoc hq hmiss2 provider2]
    exact handle_providerCalls _ _ _ _

/-- Witness for C7 at concrete inputs: after a failed provider call, the
fingerprint has no cache entry and an identical re-invocation performs a
fresh outbound call. -/
theorem failure_writes_no_cache_witness :
    mapGet (runQueryRetrieval true "d" ["q"] (.throwsError "boom") 0
        ⟨[], []⟩).state.responseCache (generateCacheKey "d" ["q"]) = none ∧
    (runQueryRetrieval true "d" ["q"] (.throwsError "boom") 1
      (runQueryRetrieval true "d" ["q"] (.throwsError "boom") 0 ⟨[], []⟩).state).providerCalls = 1 := by
  have h := @failure_writes_no_cache "d" ["q"] (.throwsError "boom") 0
    ⟨[], []⟩ (by decide) (by decide) (by rfl)
    (fun xs h => by cases h)
  exact ⟨h.1, h.2 (.throwsError "boom") 1⟩

/-- C8 counterexample: the cache-entry shape invariant fails. A provider
response carrying one answer for a two-question request is stored in the
cache verbatim: the entry under the request's fingerprint has one element,
not `questions.length = 2`. -/
theorem cache_entry_shorter_than_questions :
    mapGet (runQueryRetrieval true "d" ["q1", "q2"]
        (.ok (some "\x7b\"answers\":[\"a\"]\x7d") (some (.obj [("answers", .arr [.str "a"])])))
        0 ⟨[], []⟩).state.responseCache (generateCacheKey "d" ["q1", "q2"]) =
      some [.str "a"] ∧
    ([Json.str "a"] : List Json).length ≠ (["q1", "q2"] : List String).length :=
  ⟨rfl, by decide⟩

/-- C8 amended: every entry stored by a successful call holds exactly the
provider-returned answers array, verbatim and unpadded, stamped with the
call's clock value; its length is the provider array's length, with no
check that it equals the number of questions. -/
theorem cache_stores_provider_answers_verbatim {documentText : String}
    {questions : List String} {text : Option String} {v : Json} {xs : List Json}
    {now : Nat} {st : CacheState} (hdoc : jsTrim documentText ≠ "")
    (hq : questions ≠ [])
    (hmiss : mapGet (clearExpiredCache now st).responseCache
      (generateCacheKey documentText questions) = none)
    (htext : jsTrim (text.getD "") ≠ "") (hans : answersField v = some xs) :
    mapGet (runQueryRetrieval true documentText questions (.ok text (some v))
        now st).state.responseCache (generateCacheKey documentText questions) =
      some xs ∧
    mapGet (runQueryRetrieval true documentText questions (.ok text (some v))
        now st).state.cacheTimestamps (generateCacheKey documentText questions) =
      some now := by
  rw [run_miss hdoc hq hmiss _, handle_success htext hans]
  exact ⟨mapGet_mapSet_self _ _ _, mapGet_mapSet_self _ _ _⟩

/-- Witness for the C8 amended theorem: the one-answer provider response
for a two-question request is stored verbatim with the call's timestamp. -/
theorem cache_stores_provider_answers_verbatim_witness :
    mapGet (runQueryRetrieval true "d" ["q1", "q2"]
        (.ok (some "\x7b\"answers\":[\"a\"]\x7d") (some (.obj [("answers", .arr [.str "a"])])))
        7 ⟨[], []⟩).state.responseCache (generateCacheKey "d" ["q1", "q2"]) =
      some [.str "a"] ∧
    mapGet (runQueryRetrieval true "d" ["q1", "q2"]
        (.ok (some "\x7b\"answers\":[\"a\"]\x7d") (some (.obj [("answers", .arr [.str "a"])])))
        7 ⟨[], []⟩).state.cacheTimestamps (generateCacheKey "d" ["q1", "q2"]) =
      some 7 :=
  @cache_stores_provider_answers_verbatim "d" ["q1", "q2"]
    (some "\x7b\"answers\":[\"a\"]\x7d") (.obj [("answers", .arr [.str "a"])])
    [.str "a"] 7 ⟨[], []⟩ (by decide) (by decide) (by rfl)
    (by decide) (by rfl)

/-- C9 counterexample: the provider's original message is not preserved in
the surfaced error for the specific categories. A provider error whose
message mentions a quota is surfaced as the fixed string "API quota
exceeded. Please try again later.", which does not contain the provider's
original message. -/
theorem quota_error_message_dropped :
    (runQueryRetrieval true "d" ["q"]
        (.throwsError "quota exceeded for project 12345") 0 ⟨[], []⟩).result =
      .thrown "API quota exceeded. Please try again later." ∧
    containsSub "API quota exceeded. Please try again later."
      "quota exceeded for project 12345" = false :=
  ⟨rfl, by decide⟩

/-- C9 amended: every error raised by the provider call is surfaced as a
distinct error kind chosen by ordered substring tests on the provider's
message — quota, then authorization, then rate limit, then generic — but
the three specific kinds surface fixed messages; the provider's original
message is preserved in the surfaced error only in the generic case. -/
theorem provider_error_classified {documentText : String} {questions : List String}
    {msg : String} {now : Nat} {st : CacheState}
    (hdoc : jsTrim documentText ≠ "") (hq : questions ≠ [])
    (hmiss : mapGet (clearExpiredCache now st).responseCache
      (generateCacheKey documentText questions) = none) :
    (runQueryRetrieval true documentText questions (.throwsError msg) now st).result =
      .thrown (classifyError msg) ∧
    (runQueryRetrieval true documentText questions (.throwsError msg) now st).providerCalls = 1 ∧
    (containsSub msg "quota" = true →
      classifyError msg = "API quota exceeded. Please try again later.") ∧
    (containsSub msg "quota" = false → containsSub msg "unauthorized" = true →
      classifyError msg = "Invalid API key. Please check your API configuration.") ∧
    (containsSub msg "quota" = false → containsSub msg "unauthorized" = false →
      containsSub msg "rate limit" = true →
      classifyError msg = "Rate limit exceeded. Please wait a moment before trying again.") ∧
    (containsSub msg "quota" = false → containsSub msg "unauthorized" = false →
      containsSub msg "rate limit" = false →
      classifyError msg = "Gemini API Error: " ++ msg ∧
      containsSub ("Gemini API Error: " ++ msg) msg = true) := by
  rw [run_miss hdoc hq hmiss _]
  refine ⟨rfl, rfl, ?_, ?_, ?_, ?_⟩
  · intro h1
    simp [classifyError, h1]
  · intro h1 h2
    simp [classifyError, h1, h2]
  · intro h1 h2 h3
    simp [classifyError, h1, h2, h3]
  · intro h1 h2 h3
    refine ⟨by simp [classifyError, h1, h2, h3], ?_⟩
    apply decide_eq_true
    rw [String.data_append]
    exact (List.suffix_append _ _).isInfix

/-- Witness for the C9 amended theorem: an unauthorized-style provider
message is surfaced as the fixed invalid-API-key message. -/
theorem provider_error_classified_witness :
    (runQueryRetrieval true "d" ["q"] (.throwsError "401 unauthorized key") 0
        ⟨[], []⟩).result = .thrown (classifyError "401 unauthorized key") ∧
    classifyError "401 unauthorized key" =
      "Invalid API key. Please check your API configuration." := by
  have h := @provider_error_classified "d" ["q"] "401 unauthorized key" 0
    ⟨[], []⟩ (by decide) (by decide) (by rfl)
  exact ⟨h.1, h.2.2.2.1 (by decide) (by decide)⟩

/-- C5 counterexample: an `answers` field that is an array of non-strings
is not rejected. The parsed value `\x7b"answers": [5]\x7d` is accepted: the
call resolves with the non-string array and writes it to the cache under
the request's fingerprint, instead of failing with a malformed-response
error and writing nothing. -/
theorem nonstring_answers_accepted :
    (runQueryRetrieval true "d" ["q"]
        (.ok (some "\x7b\"answers\":[5]\x7d") (some (.obj [("answers", .arr [.num 5])])))
        0 ⟨[], []⟩).result = .answers [.num 5] ∧
    mapGet (runQueryRetrieval true "d" ["q"]
        (.ok (some "\x7b\"answers\":[5]\x7d") (some (.obj [("answers", .arr [.num 5])])))
        0 ⟨[], []⟩).state.responseCache (generateCacheKey "d" ["q"]) =
      some [.num 5] :=
  ⟨rfl, rfl⟩

/-- C5 amended: on a cache miss with a non-blank response text, a text
that fails JSON parsing is surfaced as the thrown malformed-JSON error
(reclassified by the catch-block to "Gemini API Error: Invalid JSON
response from Gemini API."), and a parsed value that is falsy or lacks an
array `answers` field yields the null result; in both cases no cache entry
is written under the request's fingerprint. Element types of an `answers`
array are not checked (see the counterexample). -/
theorem malformed_response_fails_without_caching {documentText : String}
    {questions : List String} {text : Option String} {parsed : Option Json}
    {now : Nat} {st : CacheState} (hdoc : jsTrim documentText ≠ "")
    (hq : questions ≠ [])
    (hmiss : mapGet (clearExpiredCache now st).responseCache
      (generateCacheKey documentText questions) = none)
    (htext : jsTrim (text.getD "") ≠ "") :
    (parsed = none →
      (runQueryRetrieval true documentText questions (.ok text parsed) now st).result =
        .thrown "Gemini API Error: Invalid JSON response from Gemini API." ∧
      mapGet (runQueryRetrieval true documentText questions (.ok text parsed)
          now st).state.responseCache (generateCacheKey documentText questions) = none) ∧
    (∀ v, parsed = some v → answersField v = none →
      (runQueryRetrieval true documentText questions (.ok text parsed) now st).result =
        .retNull ∧
      mapGet (runQueryRetrieval true documentText questions (.ok text parsed)
          now st).state.responseCache (generateCacheKey documentText questions) = none) := by
  rw [run_miss hdoc hq hmiss _]
  constructor
  · rintro rfl
    refine ⟨?_, ?_⟩
    · show (handleProviderOutcome _ _ _ _).result = _
      simp only [handleProviderOutcome]
      rw [if_neg htext]
      rfl
    · show mapGet (handleProviderOutcome _ _ _ _).state.responseCache _ = none
      simp only [handleProviderOutcome]
      rw [if_neg htext]
      exact hmiss
  · rintro v rfl hans
    refine ⟨?_, ?_⟩
    · show (handleProviderOutcome _ _ _ _).result = _
      simp only [handleProviderOutcome]
      rw [if_neg htext]
      simp [hans]
    · show mapGet (handleProviderOutcome _ _ _ _).state.responseCache _ = none
      simp only [handleProviderOutcome]
      rw [if_neg htext]
      simp only [hans]
      exact hmiss

/-- Witness for the C5 amended theorem: unparsable text is surfaced as the
reclassified malformed-JSON error, and a parsed object without an `answers`
array yields null; neither writes a cache entry. -/
theorem malformed_response_fails_without_caching_witness :
    ((runQueryRetrieval true "d" ["q"] (.ok (some "not json") none) 0 ⟨[], []⟩).result =
      .thrown "Gemini API Error: Invalid JSON response from Gemini API." ∧
     mapGet (runQueryRetrieval true "d" ["q"] (.ok (some "not json") none) 0
        ⟨[], []⟩).state.responseCache (generateCacheKey "d" ["q"]) = none) ∧
    ((runQueryRetrieval true "d" ["q"]
        (.ok (some "\x7b\x7d") (some (.obj []))) 0 ⟨[], []⟩).result = .retNull ∧
     mapGet (runQueryRetrieval true "d" ["q"]
        (.ok (some "\x7b\x7d") (some (.obj []))) 0 ⟨[], []⟩).state.responseCache
       (generateCacheKey "d" ["q"]) = none) :=
  ⟨(@malformed_response_fails_without_caching "d" ["q"] (some "not json") none
      0 ⟨[], []⟩ (by decide) (by decide) (by rfl) (by decide)).1 rfl,
   (@malformed_response_fails_without_caching "d" ["q"] (some "\x7b\x7d")
      (some (.obj [])) 0 ⟨[], []⟩
      (by decide) (by decide) (by rfl) (by decide)).2
      (.obj []) rfl (by rfl)⟩

theorem queryResults_length (processedQuestions answers : List String) :
    (queryResults processedQuestions answers).length = processedQuestions.length := by
  simp [queryResults]

theorem queryResults_get? (processedQuestions answers : List String) (i : Nat) :
    (queryResults processedQuestions answers).get? i =
      (processedQuestions.get? i).map
        (fun q => (q, queryResultAnswer answers i)) := by
  simp only [queryResults, List.get?_eq_getElem?, List.getElem?_map, List.getElem?_enum]
  cases processedQuestions[i]? <;> rfl

theorem queryResultAnswer_out_of_range {answers : List String} {i : Nat}
    (h : answers.length ≤ i) : queryResultAnswer answers i = "No answer found." := by
  simp [queryResultAnswer, List.get?_eq_getElem?, List.getElem?_eq_none h]

/-- C4: padding law for the result sequence delivered for a request.
If a miss-path call succeeds with a valid answers array of strings `ys`
having fewer entries than there are questions, then the service returns
`ys` and the `queryResults` sequence the UI delivers for the request has
exactly `questions.length` entries, with every position at or beyond
`ys.length` equal to the sentinel "No answer found.". -/
theorem short_answers_padded {documentText : String} {questions : List String}
    {text : Option String} {v : Json} {ys : List String} {now : Nat}
    {st : CacheState} (hdoc : jsTrim documentText ≠ "") (hq : questions ≠ [])
    (hmiss : mapGet (clearExpiredCache now st).responseCache
      (generateCacheKey documentText questions) = none)
    (htext : jsTrim (text.getD "") ≠ "")
    (hans : answersField v = some (ys.map Json.str))
    (_hlen : ys.length < questions.length) :
    (runQueryRetrieval true documentText questions (.ok text (some v)) now st).result =
      .answers (ys.map Json.str) ∧
    (queryResults questions ys).length = questions.length ∧
    ∀ i, ys.length ≤ i → i < questions.length →
      ((queryResults questions ys).map Prod.snd).get? i = some "No answer found." := by
  refine ⟨?_, queryResults_length questions ys, ?_⟩
  · rw [run_miss hdoc hq hmiss _, handle_success htext hans]
  · intro i hi hiq
    have hq? : ∃ q, questions.get? i = some q := by
      rw [List.get?_eq_getElem?]
      exact ⟨questions[i], List.getElem?_eq_some_iff.mpr ⟨hiq, rfl⟩⟩
    obtain ⟨q, hq'⟩ := hq?
    rw [List.get?_eq_getElem?, List.getElem?_map, ← List.get?_eq_getElem?,
      queryResults_get?, hq']
    simp [queryResultAnswer_out_of_range hi]

/-- Witness for C4: one string answer for two questions is delivered as a
two-entry result list whose second answer is the sentinel. -/
theorem short_answers_padded_witness :
    (runQueryRetrieval true "d" ["q1", "q2"]
        (.ok (some "\x7b\"answers\":[\"a\"]\x7d") (some (.obj [("answers", .arr [.str "a"])])))
        0 ⟨[], []⟩).result = .answers ([Json.str "a"]) ∧
    (queryResults ["q1", "q2"] ["a"]).length = 2 ∧
    ((queryResults ["q1", "q2"] ["a"]).map Prod.snd).get? 1 = some "No answer found." := by
  have h := @short_answers_padded "d" ["q1", "q2"]
    (some "\x7b\"answers\":[\"a\"]\x7d") (.obj [("answers", .arr [.str "a"])])
    ["a"] 0 ⟨[], []⟩ (by decide) (by decide) (by rfl)
    (by decide) (by rfl) (by decide)
  exact ⟨h.1, h.2.1, h.2.2 1 (by decide) (by decide)⟩

/-! ### Injectivity of the decimal rendering of the cache key -/

theorem toDigitsCore_append (fuel : Nat) : ∀ (n : Nat) (ds : List Char),
    Nat.toDigitsCore 10 fuel n ds = Nat.toDigitsCore 10 fuel n [] ++ ds := by
  induction fuel with
  | zero => intro n ds; simp [Nat.toDigitsCore]
  | succ fuel ih =>
    intro n ds
    simp only [Nat.toDigitsCore]
    split
    · rfl
    · rw [ih (n / 10) (Nat.digitChar (n % 10) :: ds),
        ih (n / 10) [Nat.digitChar (n % 10)], List.append_assoc]
      rfl

theorem decodeDigits_append_singleton (xs : List Char) (c : Char) :
    decodeDigits (xs ++ [c]) = 10 * decodeDigits xs + digitVal c := by
  simp [decodeDigits, List.foldl_append]

theorem digitVal_digitChar {d : Nat} (h : d < 10) :
    digitVal (Nat.digitChar d) = d := by
  interval_cases d <;> rfl

theorem decodeDigits_toDigitsCore : ∀ fuel n, n < fuel →
    decodeDigits (Nat.toDigitsCore 10 fuel n []) = n := by
  intro fuel
  induction fuel with
  | zero => intro n hn; exact absurd hn (Nat.not_lt_zero n)
  | succ fuel ih =>
    intro n hn
    simp only [Nat.toDigitsCore]
    split
    · next h10 =>
      have hlt : n < 10 := (Nat.div_eq_zero_iff (by norm_num)).mp h10
      show decodeDigits [Nat.digitChar (n % 10)] = n
      rw [show decodeDigits [Nat.digitChar (n % 10)] =
          digitVal (Nat.digitChar (n % 10)) from by simp [decodeDigits],
        digitVal_digitChar (Nat.mod_lt n (by norm_num)),
        Nat.mod_eq_of_lt hlt]
    · next h10 =>
      have hpos : 0 < n := by
        rcases Nat.eq_zero_or_pos n with h0 | h0
        · exact absurd (by simp [h0]) h10
        · exact h0
      have hdiv : n / 10 < n := Nat.div_lt_self hpos (by norm_num)
      rw [toDigitsCore_append, decodeDigits_append_singleton,
        ih (n / 10) (by omega),
        digitVal_digitChar (Nat.mod_lt n (by norm_num)),
        Nat.div_add_mod]

theorem natRepr_inj {m n : Nat} (h : Nat.repr m = Nat.repr n) : m = n := by
  have hdata : Nat.toDigitsCore 10 (m + 1) m [] = Nat.toDigitsCore 10 (n + 1) n [] := by
    have := congrArg String.data h
    simpa [Nat.repr, Nat.toDigits, List.asString] using this
  have h1 := decodeDigits_toDigitsCore (m + 1) m (Nat.lt_succ_self m)
  have h2 := decodeDigits_toDigitsCore (n + 1) n (Nat.lt_succ_self n)
  rw [← h1, ← h2, hdata]

theorem toDigitsCore_mem_range (fuel : Nat) : ∀ (n : Nat) (ds : List Char),
    (∀ c ∈ ds, 48 ≤ c.toNat ∧ c.toNat ≤ 57) →
    ∀ c ∈ Nat.toDigitsCore 10 fuel n ds, 48 ≤ c.toNat ∧ c.toNat ≤ 57 := by
  induction fuel with
  | zero => intro n ds hds; simpa [Nat.toDigitsCore] using hds
  | succ fuel ih =>
    intro n ds hds
    have hdigit : 48 ≤ (Nat.digitChar (n % 10)).toNat ∧
        (Nat.digitChar (n % 10)).toNat ≤ 57 := by
      have : n % 10 < 10 := Nat.mod_lt n (by norm_num)
      interval_cases h : n % 10 <;> exact (by decide)
    simp only [Nat.toDigitsCore]
    split
    · intro c hc
      rcases List.mem_cons.mp hc with h1 | h2
      · exact h1 ▸ hdigit
      · exact hds c h2
    · apply ih
      intro c hc
      rcases List.mem_cons.mp hc with h1 | h2
      · exact h1 ▸ hdigit
      · exact hds c h2

theorem natRepr_data_digits {n : Nat} {c : Char} (hc : c ∈ (Nat.repr n).data) :
    48 ≤ c.toNat ∧ c.toNat ≤ 57 := by
  have : (Nat.repr n).data = Nat.toDigitsCore 10 (n + 1) n [] := by
    simp [Nat.repr, Nat.toDigits, List.asString]
  rw [this] at hc
  exact toDigitsCore_mem_range (n + 1) n [] (by simp) c hc

theorem intToString_inj {i j : Int} (h : toString i = toString j) : i = j := by
  cases i with
  | ofNat m =>
    cases j with
    | ofNat n =>
      have h' : Nat.repr m = Nat.repr n := h
      exact congrArg Int.ofNat (natRepr_inj h')
    | negSucc n =>
      exfalso
      have h' : Nat.repr m = "-" ++ Nat.repr (n + 1) := h
      have hd := congrArg String.data h'
      rw [String.data_append] at hd
      have hmem : ('-' : Char) ∈ (Nat.repr m).data := by
        rw [hd]
        exact List.mem_append_left _ (by decide)
      have := natRepr_data_digits hmem
      simp at this
  | negSucc m =>
    cases j with
    | ofNat n =>
      exfalso
      have h' : "-" ++ Nat.repr (m + 1) = Nat.repr n := h
      have hd := congrArg String.data h'.symm
      rw [String.data_append] at hd
      have hmem : ('-' : Char) ∈ (Nat.repr n).data := by
        rw [hd]
        exact List.mem_append_left _ (by decide)
      have := natRepr_data_digits hmem
      simp at this
    | negSucc n =>
      have h' : "-" ++ Nat.repr (m + 1) = "-" ++ Nat.repr (n + 1) := h
      have hd := congrArg String.data h'
      rw [String.data_append, String.data_append] at hd
      have hdd : (Nat.repr (m + 1)).data = (Nat.repr (n + 1)).data :=
        List.append_cancel_left hd
      have hmn := natRepr_inj (String.ext hdd)
      have : m = n := by omega
      rw [this]

theorem toInt32_inj {a b : Nat} (ha : a < 2 ^ 32) (hb : b < 2 ^ 32)
    (h : toInt32 a = toInt32 b) : a = b := by
  unfold toInt32 at h
  rw [Nat.mod_eq_of_lt ha, Nat.mod_eq_of_lt hb] at h
  split at h <;> split at h <;> omega

/-! ### Hash distinctness under a single-character change -/

theorem jsHashStep_lt (h c : Nat) : jsHashStep h c < 2 ^ 32 :=
  Nat.mod_lt _ (by norm_num)

theorem foldl_jsHashStep_lt : ∀ (l : List Nat) (h : Nat), h < 2 ^ 32 →
    List.foldl jsHashStep h l < 2 ^ 32 := by
  intro l
  induction l with
  | nil => intro h hh; exact hh
  | cons c rest ih => intro h _; exact ih _ (jsHashStep_lt h c)

theorem jsHashStep_left_inj {h h' : Nat} (c : Nat) (hh : h < 2 ^ 32)
    (hh' : h' < 2 ^ 32) (hne : h ≠ h') : jsHashStep h c ≠ jsHashStep h' c := by
  intro heq
  apply hne
  have hmod : 31 * h + c ≡ 31 * h' + c [MOD 2 ^ 32] := heq
  have h31 : 31 * h ≡ 31 * h' [MOD 2 ^ 32] := Nat.ModEq.add_right_cancel' c hmod
  have hcop : Nat.gcd (2 ^ 32) 31 = 1 := by decide
  have hmeq : h ≡ h' [MOD 2 ^ 32] := Nat.ModEq.cancel_left_of_coprime hcop h31
  have := hmeq
  unfold Nat.ModEq at this
  rw [Nat.mod_eq_of_lt hh, Nat.mod_eq_of_lt hh'] at this
  exact this

theorem jsHashStep_right_inj {c c' : Nat} (h : Nat) (hc : c < 2 ^ 32)
    (hc' : c' < 2 ^ 32) (hne : c ≠ c') : jsHashStep h c ≠ jsHashStep h c' := by
  intro heq
  apply hne
  have hmod : 31 * h + c ≡ 31 * h + c' [MOD 2 ^ 32] := heq
  have hmeq : c ≡ c' [MOD 2 ^ 32] := Nat.ModEq.add_left_cancel' (31 * h) hmod
  have := hmeq
  unfold Nat.ModEq at this
  rw [Nat.mod_eq_of_lt hc, Nat.mod_eq_of_lt hc'] at this
  exact this

theorem foldl_jsHashStep_ne : ∀ (l : List Nat) {h h' : Nat}, h < 2 ^ 32 →
    h' < 2 ^ 32 → h ≠ h' →
    List.foldl jsHashStep h l ≠ List.foldl jsHashStep h' l := by
  intro l
  induction l with
  | nil => intro h h' _ _ hne; exact hne
  | cons c rest ih =>
    intro h h' hh hh' hne
    exact ih (jsHashStep_lt h c) (jsHashStep_lt h' c)
      (jsHashStep_left_inj c hh hh' hne)

theorem char_toNat_lt (c : Char) : c.toNat < 2 ^ 32 :=
  lt_of_lt_of_le c.val.toNat_lt_size (by decide)

theorem char_toNat_ne {c c' : Char} (h : c ≠ c') : c.toNat ≠ c'.toNat := by
  intro heq
  apply h
  apply Char.ext
  have : c.val.toBitVec.toNat = c'.val.toBitVec.toNat := heq
  exact UInt32.eq_of_toBitVec_eq (BitVec.eq_of_toNat_eq this)

theorem cacheHash_ne_of_single_char {pre suf : List Char} {c c' : Char}
    (questions : List String) (hne : c ≠ c') :
    cacheHash ⟨pre ++ c :: suf⟩ questions ≠ cacheHash ⟨pre ++ c' :: suf⟩ questions := by
  unfold cacheHash combinedString
  rw [String.data_append, String.data_append]
  show List.foldl jsHashStep 0
      (List.map Char.toNat ((pre ++ c :: suf) ++ (String.intercalate "||" questions).data)) ≠
    List.foldl jsHashStep 0
      (List.map Char.toNat ((pre ++ c' :: suf) ++ (String.intercalate "||" questions).data))
  rw [List.append_assoc, List.append_assoc, List.cons_append, List.cons_append,
    List.map_append, List.map_append, List.map_cons, List.map_cons,
    List.foldl_append, List.foldl_append, List.foldl_cons, List.foldl_cons]
  apply foldl_jsHashStep_ne
  · exact jsHashStep_lt _ _
  · exact jsHashStep_lt _ _
  · exact jsHashStep_right_inj _ (char_toNat_lt c) (char_toNat_lt c')
      (char_toNat_ne hne)

theorem generateCacheKey_ne_of_hash_ne {d1 d2 : String} {qs1 qs2 : List String}
    (h : cacheHash d1 qs1 ≠ cacheHash d2 qs2) :
    generateCacheKey d1 qs1 ≠ generateCacheKey d2 qs2 := by
  intro heq
  apply h
  have hlt1 : cacheHash d1 qs1 < 2 ^ 32 :=
    foldl_jsHashStep_lt _ _ (by norm_num)
  have hlt2 : cacheHash d2 qs2 < 2 ^ 32 :=
    foldl_jsHashStep_lt _ _ (by norm_num)
  exact toInt32_inj hlt1 hlt2 (intToString_inj heq)

/-- C1 counterexample: the fingerprint is not distinguishing. The two
question lists `["Aa", "BB"]` and `["BB", "Aa"]` differ (a genuine
reordering), yet with the same document text they produce the identical
cache key: the 32-bit rolling hash collides on this swap. -/
theorem question_reorder_collision :
    (["Aa", "BB"] : List String) ≠ ["BB", "Aa"] ∧
    generateCacheKey "doc" ["Aa", "BB"] = generateCacheKey "doc" ["BB", "Aa"] :=
  ⟨by decide, rfl⟩

/-- C1 amended: the fingerprint is deterministic (a pure function of the
document text and ordered question list), and changing any single
character of the document text — with the questions held fixed — always
yields a different cache key; but distinct inputs do not always yield
distinct keys: reordering questions can collide (see the
counterexample). -/
theorem generateCacheKey_single_char_distinct (questions : List String)
    (pre suf : List Char) {c c' : Char} (hne : c ≠ c') :
    generateCacheKey ⟨pre ++ c :: suf⟩ questions ≠
      generateCacheKey ⟨pre ++ c' :: suf⟩ questions :=
  generateCacheKey_ne_of_hash_ne (cacheHash_ne_of_single_char questions hne)

/-- Witness for the C1 amended theorem: documents "a" and "b" (one changed
character) get different keys for the question list `["q"]`. -/
theorem generateCacheKey_single_char_distinct_witness :
    ('a' ≠ 'b') ∧ generateCacheKey ⟨['a']⟩ ["q"] ≠ generateCacheKey ⟨['b']⟩ ["q"] :=
  ⟨by decide, generateCacheKey_single_char_distinct ["q"] [] [] (by decide)⟩

end GeminiService
